import Mathlib

/-!
# httpmicroservice: the session loop, the runner and the echo example

A shallow embedding of

* `include/httpmicroservice/session.hpp` (the templated `session`),
* `src/httpmicroservice.cpp` (`session`, `run`),
* `examples/echo.cpp` (`post`, `get`, `echo`, `main`).

The byte stream and the HTTP codec are external.  One run of a session is
driven by a *script*: the list of outcomes the codec delivers, one entry per
loop iteration (the outcome of that iteration's `async_read`, and the outcome
of its `async_write` should the iteration get that far).  A script that is
used up leaves the coroutine suspended in its next read.  Every stream and
handler action is appended to a trace, in program order.
-/

namespace httpmicroservice

/-! ## Messages -/

/-- A `std::string`: one `Char` per C++ `char`. -/
abbrev Str := List Char

/-- The request methods of `http::verb`. -/
inductive verb where
  | unknown | delete_ | get | head | post | put | connect | options | trace
  | copy | lock | mkcol | move | propfind | proppatch | search | unlock
  | bind | rebind | unbind | acl | report | mkactivity | checkout | merge
  | msearch | notify | subscribe | unsubscribe | patch | purge | mkcalendar
  | link | unlink
  deriving DecidableEq, Repr

/-- Status codes of `http::status` that the repository uses. -/
abbrev status := Nat

/-- Value of `http::status::ok`. -/
def status.ok : status := 200
/-- Value of `http::status::not_found`. -/
def status.not_found : status := 404
/-- Value of `http::status::method_not_allowed`. -/
def status.method_not_allowed : status := 405

/-- Modelled from the spec: the request type of `types.hpp` (absent), with the
fields section 3 lists.  The header multimap is kept as the content type and
the two `Connection` tokens that keep-alive negotiation looks at. -/
structure request where
  method : verb
  target : Str
  version : Nat
  content_type : Option Str
  connection_close : Bool
  connection_keep_alive : Bool
  body : Str
  deriving DecidableEq, Repr

/-- Modelled from the spec: the keep-alive negotiation result of a request
(section 4.1, step 2).  HTTP/1.1 and later keep the connection unless
`Connection: close` was sent; earlier versions close it unless
`Connection: keep-alive` was sent. -/
def request.keep_alive (req : request) : Bool :=
  if req.version < 11 then req.connection_keep_alive else !req.connection_close

/-- Modelled from the spec: the response type of `types.hpp` (absent): status
code, version, headers, body, the keep-alive flag and the payload framing
that `prepare_payload` fills in. -/
structure response where
  result : status
  version : Nat
  content_type : Option Str
  body : Str
  keep_alive : Bool
  content_length : Option Nat
  chunked : Bool
  deriving DecidableEq, Repr

/-- The constructor `response{status, version}`: no header, empty body. -/
def response.make (result : status) (version : Nat) : response :=
  { result := result, version := version, content_type := none, body := [],
    keep_alive := decide (11 ≤ version), content_length := none, chunked := false }

/-- The setter `res.keep_alive(value)`. -/
def response.set_keep_alive (res : response) (value : Bool) : response :=
  { res with keep_alive := value }

/-! ## Codec outcomes -/

/-- Error codes a read or a write can report. -/
inductive error_code where
  | end_of_stream
  | partial_message
  | buffer_overflow
  | header_limit
  | body_limit
  | bad_method
  | bad_target
  | bad_version
  | system (errno : Nat)
  deriving DecidableEq, Repr

/-- Outcome of one `http::async_read`. -/
inductive ReadResult where
  | ok (req : request) (bytes_read : Nat)
  | fail (ec : error_code)
  deriving DecidableEq, Repr

/-- Outcome of one `http::async_write`. -/
inductive WriteResult where
  | ok (bytes_write : Nat)
  | fail (ec : error_code)
  deriving DecidableEq, Repr

/-- What the codec delivers during one loop iteration. -/
structure Cycle where
  read : ReadResult
  write : WriteResult
  deriving DecidableEq, Repr

/-- Modelled from the spec: `session_stats` of `types.hpp` (absent), the
statistics record of section 3, with unbounded counters. -/
structure session_stats where
  fd : Nat
  num_request : Nat
  bytes_read : Nat
  bytes_write : Nat
  start_time : Nat
  end_time : Nat
  deriving DecidableEq, Repr

/-- A value-initialised `session_stats`. -/
def session_stats.zero : session_stats :=
  { fd := 0, num_request := 0, bytes_read := 0, bytes_write := 0, start_time := 0, end_time := 0 }

/-- Actions of a session on its stream, its handler and its reporter. -/
inductive Event where
  | read (r : ReadResult)
  | dispatch (req : request)
  | write (res : response) (w : WriteResult)
  | shutdown_send
  | report_stats (s : session_stats)
  deriving DecidableEq, Repr

/-- How far a coroutine got. -/
inductive Exit where
  | pending
  | finished
  | raised (what : String)
  deriving DecidableEq, Repr

/-- The observable result of running a session over a script. -/
structure Run where
  trace : List Event
  stats : session_stats
  exit : Exit
  deriving DecidableEq, Repr

/-- A request handler; `Except.error` is an exception thrown by it. -/
abbrev Handler := request → Except String response

/-- The external message operations the session calls on a response. -/
structure MessageOps where
  prepare_payload : response → response
  need_eof : response → Bool

/-! ## `session.hpp` -/

/-- Value of `kRequestSizeLimit` in `session.hpp`. -/
def kRequestSizeLimit : Nat := 1000 * 1000

/-- Lines 72 to 74: `stats.bytes_read += bytes_read` when statistics are on. -/
def count_read (kEnableStats : Bool) (stats : session_stats) (bytes_read : Nat) : session_stats :=
  if kEnableStats then { stats with bytes_read := stats.bytes_read + bytes_read } else stats

/-- Lines 92 to 95: `++stats.num_request; stats.bytes_write += bytes_write`
when statistics are on. -/
def count_write (kEnableStats : Bool) (stats : session_stats) (bytes_write : Nat) :
    session_stats :=
  if kEnableStats then
    { stats with num_request := stats.num_request + 1,
                 bytes_write := stats.bytes_write + bytes_write }
  else stats

/-- The `for (;;)` loop of the templated `session` (lines 55 to 101), started
with the statistics record `stats`. -/
def session_loop (kEnableStats : Bool) (handler : Handler) (ops : MessageOps) :
    List Cycle → session_stats → Run
  | [], stats => { trace := [], stats := stats, exit := .pending }
  | c :: rest, stats =>
    match c.read with
    | .fail ec =>
      if ec = .end_of_stream then
        { trace := [.read c.read, .shutdown_send], stats := stats, exit := .finished }
      else
        { trace := [.read c.read], stats := stats, exit := .finished }
    | .ok req bytes_read =>
      let stats1 := count_read kEnableStats stats bytes_read
      let keep_alive := req.keep_alive
      match handler req with
      | .error what =>
        { trace := [.read c.read, .dispatch req], stats := stats1, exit := .raised what }
      | .ok res0 =>
        let res := (ops.prepare_payload res0).set_keep_alive keep_alive
        match c.write with
        | .fail _ =>
          { trace := [.read c.read, .dispatch req, .write res c.write], stats := stats1,
            exit := .finished }
        | .ok bytes_write =>
          let stats2 := count_write kEnableStats stats1 bytes_write
          if ops.need_eof res then
            { trace := [.read c.read, .dispatch req, .write res c.write, .shutdown_send],
              stats := stats2, exit := .finished }
          else
            let r := session_loop kEnableStats handler ops rest stats2
            { r with trace := [.read c.read, .dispatch req, .write res c.write] ++ r.trace }

/-- Lines 46 to 50: the record a session starts with. -/
def initial_stats (kEnableStats : Bool) (fd start_time : Nat) : session_stats :=
  if kEnableStats then { session_stats.zero with fd := fd, start_time := start_time }
  else session_stats.zero

/-- The templated `session` of `session.hpp`.  `kEnableStats` says whether the
reporter type accepts a `session_stats`; `fd` is `stream.native_handle()`,
`start_time` and `end_time` are the two clock readings. -/
def session (kEnableStats : Bool) (handler : Handler) (ops : MessageOps)
    (fd start_time end_time : Nat) (script : List Cycle) : Run :=
  let stats0 := initial_stats kEnableStats fd start_time
  let r := session_loop kEnableStats handler ops script stats0
  match r.exit with
  | .finished =>
    if kEnableStats then
      let stats := { r.stats with end_time := end_time }
      { trace := r.trace ++ [.report_stats stats], stats := stats, exit := .finished }
    else r
  | _ => r

/-! ## `httpmicroservice.cpp` -/

namespace cpp

/-- Value of `kRequestSizeLimit` in `httpmicroservice.cpp`. -/
def kRequestSizeLimit : Nat := 1 <<< 20

/-- How control leaves the `for (;;)` loop of `session` in
`httpmicroservice.cpp`. -/
inductive LoopExit where
  | pending
  | break_
  | co_return
  | raised (what : String)
  deriving DecidableEq, Repr

/-- The `for (;;)` loop of `session` in `httpmicroservice.cpp` (lines 36 to
68). -/
def session_loop (handler : Handler) (ops : MessageOps) : List Cycle → List Event × LoopExit
  | [] => ([], .pending)
  | c :: rest =>
    match c.read with
    | .fail ec =>
      if ec = .end_of_stream then ([.read c.read], .break_)
      else ([.read c.read], .co_return)
    | .ok req _ =>
      let keep_alive := req.keep_alive
      match handler req with
      | .error what => ([.read c.read, .dispatch req], .raised what)
      | .ok res0 =>
        let res := (ops.prepare_payload res0).set_keep_alive keep_alive
        match c.write with
        | .fail _ => ([.read c.read, .dispatch req, .write res c.write], .co_return)
        | .ok _ =>
          if ops.need_eof res then
            ([.read c.read, .dispatch req, .write res c.write], .break_)
          else
            let r := session_loop handler ops rest
            ([.read c.read, .dispatch req, .write res c.write] ++ r.1, r.2)

/-- The coroutine `session` of `httpmicroservice.cpp`: the loop, then the
`socket.shutdown` of line 70, reached by `break` only. -/
def session (handler : Handler) (ops : MessageOps) (script : List Cycle) : List Event × Exit :=
  match session_loop handler ops script with
  | (tr, .break_) => (tr ++ [.shutdown_send], .finished)
  | (tr, .co_return) => (tr, .finished)
  | (tr, .pending) => (tr, .pending)
  | (tr, .raised what) => (tr, .raised what)

/-- What happens inside `ctx.run()`: a signal handler stops the context, or
the `listen` coroutine ends, or it ends with an exception (a failed bind
throws from the acceptor's constructor inside `listen`). -/
inductive ListenOutcome where
  | signal (signo : Nat)
  | ended
  | raised (what : String)
  deriving DecidableEq, Repr

/-- The function `run` of `httpmicroservice.cpp`.  `resolve` is the outcome of
the throwing `resolver.resolve` call; `Except.error` is an exception that
leaves `run`. -/
def run {endpoint : Type} (resolve : Except String endpoint)
    (ctx_run : endpoint → ListenOutcome) : Except String Int :=
  match resolve with
  | .error what => .error what
  | .ok ep =>
    match ctx_run ep with
    | .signal _ => .ok 0
    | .ended => .ok 0
    | .raised what => .error what

end cpp

/-! ## `examples/echo.cpp` -/

namespace examples

/-- The call `boost::algorithm::to_upper` in the default locale. -/
def to_upper (s : Str) : Str := s.map Char.toUpper

/-- The call `boost::algorithm::to_lower` in the default locale. -/
def to_lower (s : Str) : Str := s.map Char.toLower

/-- The function `post` of `echo.cpp`. -/
def post (req : request) : response :=
  let res := response.make status.ok req.version
  let res := { res with content_type := some "text/plain".toList }
  let res := { res with body := req.body }
  if req.target = "/reverse".toList then
    { res with body := res.body.reverse }
  else if req.target = "/uppercase".toList then
    { res with body := to_upper res.body }
  else if req.target = "/lowercase".toList then
    { res with body := to_lower res.body }
  else if req.target = "/yell".toList then
    { res with body := res.body ++ "!!".toList }
  else
    res

/-- The function `get` of `echo.cpp`.  The assignment to `req.target()` on
line 45 writes to a temporary view and leaves the request as it was. -/
def get (req : request) : response :=
  if req.target = "/not_found".toList then
    response.make status.not_found req.version
  else
    let target := req.target
    let res := response.make status.ok req.version
    let res := { res with content_type := some "application/json".toList }
    { res with body := "\x7b\"hello\": \"".toList ++ target ++ "\"\x7d".toList }

/-- The coroutine `echo` of `echo.cpp`. -/
def echo (req : request) : response :=
  match req.method with
  | .get => get req
  | .post => post req
  | _ => response.make status.method_not_allowed req.version

/-- The function `main` of `echo.cpp`: each argument is the outcome of one
call in the `try` block, `Except.error` being an exception. -/
def main (getenv_port : Except String Nat) (async_run : Nat → Except String Unit)
    (ioc_run : Except String Unit) : Int :=
  match getenv_port with
  | .error _ => -1
  | .ok port =>
    match async_run port with
    | .error _ => -1
    | .ok _ =>
      match ioc_run with
      | .error _ => -1
      | .ok _ => 0

end examples

/-! ## Shape of a loop trace -/

/-- The response the session writes for `req` when the handler returned `res0`:
payload prepared, then keep-alive forced to the request's value. -/
def outgoing (ops : MessageOps) (req : request) (res0 : response) : response :=
  (ops.prepare_payload res0).set_keep_alive req.keep_alive

/-- What stands right before and right after one event `x` of a loop trace
`pre ++ x :: suf` that ended with `e`. -/
def Local (handler : Handler) (ops : MessageOps) (e : Exit) (pre : List Event) (x : Event)
    (suf : List Event) : Prop :=
  match x with
  | .read (.fail ec) =>
    suf = (if ec = .end_of_stream then [.shutdown_send] else []) ∧ e = .finished
  | .read (.ok req _) => ∃ suf', suf = .dispatch req :: suf'
  | .dispatch req =>
    (∃ pre' b, pre = pre' ++ [.read (.ok req b)]) ∧
    (match handler req with
     | .error what => suf = [] ∧ e = .raised what
     | .ok res0 => ∃ w suf', suf = .write (outgoing ops req res0) w :: suf')
  | .write res w =>
    (∃ pre' req b res0, pre = pre' ++ [.read (.ok req b), .dispatch req] ∧
      handler req = .ok res0 ∧ res = outgoing ops req res0) ∧
    (match w with
     | .fail _ => suf = [] ∧ e = .finished
     | .ok _ =>
       if ops.need_eof res then suf = [.shutdown_send] ∧ e = .finished
       else suf = [] ∨ ∃ r suf', suf = .read r :: suf')
  | .shutdown_send => suf = [] ∧ e = .finished
  | .report_stats _ => False

/-- The traces the loop of a session can leave, with the way it ended. -/
inductive LoopTrace (handler : Handler) (ops : MessageOps) : List Event → Exit → Prop where
  | pending : LoopTrace handler ops [] .pending
  | end_of_stream :
      LoopTrace handler ops [.read (.fail .end_of_stream), .shutdown_send] .finished
  | read_error (ec : error_code) (hec : ec ≠ .end_of_stream) :
      LoopTrace handler ops [.read (.fail ec)] .finished
  | raised (req : request) (b : Nat) (what : String) (hh : handler req = .error what) :
      LoopTrace handler ops [.read (.ok req b), .dispatch req] (.raised what)
  | write_error (req : request) (b : Nat) (res0 : response) (ec : error_code)
      (hh : handler req = .ok res0) :
      LoopTrace handler ops
        [.read (.ok req b), .dispatch req, .write (outgoing ops req res0) (.fail ec)] .finished
  | need_eof (req : request) (b : Nat) (res0 : response) (n : Nat)
      (hh : handler req = .ok res0) (hn : ops.need_eof (outgoing ops req res0) = true) :
      LoopTrace handler ops
        [.read (.ok req b), .dispatch req, .write (outgoing ops req res0) (.ok n),
          .shutdown_send] .finished
  | next (req : request) (b : Nat) (res0 : response) (n : Nat) (t : List Event) (e : Exit)
      (hh : handler req = .ok res0) (hn : ops.need_eof (outgoing ops req res0) = false)
      (ht : LoopTrace handler ops t e) :
      LoopTrace handler ops
        (.read (.ok req b) :: .dispatch req :: .write (outgoing ops req res0) (.ok n) :: t) e

/-- The reporter call of lines 103 to 106, as the events it adds after a loop
that ended as `r`. -/
def report_tail (k : Bool) (r : Run) (end_time : Nat) : List Event :=
  if k = true ∧ r.exit = .finished then [.report_stats { r.stats with end_time := end_time }]
  else []

/-! ## Cycles that complete -/

/-- One cycle in which the read, the handler and the write all succeed: the
request read, the bytes read, the handler's response and the bytes written. -/
structure Served where
  req : request
  bytes_read : Nat
  res0 : response
  bytes_write : Nat
  deriving DecidableEq, Repr

/-- What the codec delivers in a cycle that completes. -/
def Served.cycle (it : Served) : Cycle :=
  { read := .ok it.req it.bytes_read, write := .ok it.bytes_write }

/-- The three actions of a cycle that completes. -/
def Served.events (ops : MessageOps) (it : Served) : List Event :=
  [.read (.ok it.req it.bytes_read), .dispatch it.req,
   .write (outgoing ops it.req it.res0) (.ok it.bytes_write)]

/-- The statistics record after a cycle that completes. -/
def Served.count (k : Bool) (st : session_stats) (it : Served) : session_stats :=
  count_write k (count_read k st it.bytes_read) it.bytes_write

/-- Whether an event is a call of the reporter. -/
def Event.is_report : Event → Bool
  | .report_stats _ => true
  | _ => false

/-- Whether an event is a write that succeeded: the last step of a cycle in
which the read, the handler and the write all succeeded. -/
def Event.is_completion : Event → Bool
  | .write _ (.ok _) => true
  | _ => false

/-- The number of cycles of a trace in which the read, the handler and the
write all succeeded. -/
def completed (t : List Event) : Nat := t.countP Event.is_completion

/-- The request of a handler call. -/
def Event.dispatched : Event → Option request
  | .dispatch req => some req
  | _ => none

/-- The response of a write. -/
def Event.written : Event → Option response
  | .write res _ => some res
  | _ => none

/-! ## The reference table of the echo handler -/

namespace examples

/-- ASCII upper-casing of one character: the letters `a` to `z` move to `A`
to `Z`, every other character stays. -/
def ascii_upper (c : Char) : Char :=
  if 'a' ≤ c ∧ c ≤ 'z' then Char.ofNat (c.toNat - 32) else c

/-- ASCII lower-casing of one character: the letters `A` to `Z` move to `a`
to `z`, every other character stays. -/
def ascii_lower (c : Char) : Char :=
  if 'A' ≤ c ∧ c ≤ 'Z' then Char.ofNat (c.toNat + 32) else c

/-- The reference table for `echo`, following the specification: the status,
the version and the body of the response to each request. -/
def echo_table (req : request) : Nat × Nat × Str :=
  match req.method with
  | .post =>
    if req.target = "/reverse".toList then (200, req.version, req.body.reverse)
    else if req.target = "/uppercase".toList then (200, req.version, req.body.map ascii_upper)
    else if req.target = "/lowercase".toList then (200, req.version, req.body.map ascii_lower)
    else if req.target = "/yell".toList then (200, req.version, req.body ++ ['!', '!'])
    else (200, req.version, req.body)
  | .get =>
    if req.target = "/not_found".toList then (404, req.version, [])
    else (200, req.version, "\x7b\"hello\": \"".toList ++ req.target ++ "\"\x7d".toList)
  | _ => (405, req.version, [])

end examples

/-! ## Sample runs -/

namespace sample

/-- Message operations after the HTTP library: the length header is set from
the body, and a response needs EOF when it is not keep-alive or not framed. -/
def ops : MessageOps :=
  { prepare_payload := fun res => { res with content_length := some res.body.length },
    need_eof := fun res =>
      if res.content_length.isSome || res.chunked then !res.keep_alive else true }

/-- A `POST /reverse` over HTTP/1.1 with body `abc`. -/
def post_reverse : request :=
  { method := .post, target := "/reverse".toList, version := 11, content_type := none,
    connection_close := false, connection_keep_alive := false, body := "abc".toList }

/-- A `GET /anything` over HTTP/1.1 with `Connection: close`. -/
def get_close : request :=
  { method := .get, target := "/anything".toList, version := 11, content_type := none,
    connection_close := true, connection_keep_alive := false, body := [] }

/-- The echo handler. -/
def echo_handler : Handler := fun req => .ok (examples.echo req)

/-- A handler that asks for keep-alive on every response. -/
def eager_handler : Handler := fun req => .ok ((examples.echo req).set_keep_alive true)

/-- A handler that throws on `GET`. -/
def failing_handler : Handler := fun req =>
  match req.method with
  | .get => .error "handler failed"
  | _ => .ok (examples.echo req)

/-- Two requests, the second with `Connection: close`; both writes succeed. -/
def two_requests : List Cycle :=
  [{ read := .ok post_reverse 60, write := .ok 80 },
   { read := .ok get_close 40, write := .ok 90 }]

/-- What `eager_handler` makes the session write for `post_reverse`. -/
def eager_first : response :=
  outgoing ops post_reverse ((examples.echo post_reverse).set_keep_alive true)

/-- What `eager_handler` makes the session write for `get_close`. -/
def eager_second : response :=
  outgoing ops get_close ((examples.echo get_close).set_keep_alive true)

/-- The events of the first cycle of `two_requests`. -/
def first_cycle : List Event :=
  [.read (.ok post_reverse 60), .dispatch post_reverse, .write eager_first (.ok 80)]

/-- The events of `two_requests` up to the second write. -/
def two_requests_start : List Event :=
  first_cycle ++ [.read (.ok get_close 40), .dispatch get_close]

/-- The first cycle of `two_requests` under `eager_handler`. -/
def served_first : Served :=
  { req := post_reverse, bytes_read := 60,
    res0 := (examples.echo post_reverse).set_keep_alive true, bytes_write := 80 }

/-- The second cycle of `two_requests` under `eager_handler`. -/
def served_second : Served :=
  { req := get_close, bytes_read := 40,
    res0 := (examples.echo get_close).set_keep_alive true, bytes_write := 90 }

/-- The record reported after `two_requests` on descriptor 3, from time 100
to time 200. -/
def two_requests_stats : session_stats :=
  { fd := 3, num_request := 2, bytes_read := 100, bytes_write := 170, start_time := 100,
    end_time := 200 }

/-- One request, then the peer closes the connection. -/
def request_then_eof : List Cycle :=
  [{ read := .ok post_reverse 60, write := .ok 80 },
   { read := .fail .end_of_stream, write := .fail .end_of_stream }]

/-- One request, then an oversized message. -/
def request_then_overflow : List Cycle :=
  [{ read := .ok post_reverse 60, write := .ok 80 },
   { read := .fail .buffer_overflow, write := .fail .end_of_stream }]

/-- What `echo_handler` makes the session write for `post_reverse`. -/
def echo_first : response := outgoing ops post_reverse (examples.echo post_reverse)

/-- The events of one `post_reverse` cycle under `echo_handler`. -/
def echo_cycle : List Event :=
  [.read (.ok post_reverse 60), .dispatch post_reverse, .write echo_first (.ok 80)]

/-- The record reported after one `post_reverse` cycle on descriptor 3, from
time 100 to time 200. -/
def one_request_stats : session_stats :=
  { fd := 3, num_request := 1, bytes_read := 60, bytes_write := 80, start_time := 100,
    end_time := 200 }

end sample

/-! ## Lemmas on loop traces -/

theorem split_triple {α : Type} (a b c x : α) (pre suf t : List α)
    (h : pre ++ x :: suf = a :: b :: c :: t) :
    (pre = [] ∧ x = a ∧ suf = b :: c :: t) ∨ (pre = [a] ∧ x = b ∧ suf = c :: t) ∨
    (pre = [a, b] ∧ x = c ∧ suf = t) ∨ ∃ pre', pre = a :: b :: c :: pre' ∧ pre' ++ x :: suf = t := by
  rcases pre with _ | ⟨p1, _ | ⟨p2, _ | ⟨p3, pre'⟩⟩⟩
  · simp at h; simp [h]
  · simp at h; simp [h]
  · simp at h; simp [h]
  · simp at h
    obtain ⟨h1, h2, h3, h4⟩ := h
    subst h1 h2 h3
    right; right; right
    exact ⟨pre', rfl, h4⟩

theorem session_loop_trace (k : Bool) (handler : Handler) (ops : MessageOps)
    (script : List Cycle) :
    ∀ st : session_stats,
      LoopTrace handler ops (session_loop k handler ops script st).trace
        (session_loop k handler ops script st).exit := by
  induction script with
  | nil => intro st; simp only [session_loop]; exact .pending
  | cons c rest ih =>
    intro st
    cases hr : c.read with
    | fail ec =>
      by_cases he : ec = .end_of_stream
      · subst he
        simp only [session_loop, hr, if_true]
        exact .end_of_stream
      · simp only [session_loop, hr, he, if_false]
        exact .read_error ec he
    | ok req b =>
      cases hh : handler req with
      | error what =>
        simp only [session_loop, hr, hh]
        exact .raised req b what hh
      | ok res0 =>
        cases hw : c.write with
        | fail ec =>
          simp only [session_loop, hr, hh, hw]
          exact .write_error req b res0 ec hh
        | ok n =>
          by_cases hn : ops.need_eof (outgoing ops req res0) = true
          · have hn' := hn
            simp only [outgoing] at hn'
            simp only [session_loop, hr, hh, hw, hn', if_true]
            exact .need_eof req b res0 n hh hn
          · have hn' := hn
            simp only [outgoing] at hn'
            simp only [session_loop, hr, hh, hw, hn', if_false]
            exact .next req b res0 n _ _ hh (by simpa using hn) (ih _)

/-- A loop trace is empty or starts with a read. -/
theorem LoopTrace.head {handler : Handler} {ops : MessageOps} {t : List Event} {e : Exit}
    (h : LoopTrace handler ops t e) : t = [] ∨ ∃ r t', t = .read r :: t' := by
  cases h with
  | pending => exact Or.inl rfl
  | end_of_stream => exact Or.inr ⟨_, _, rfl⟩
  | read_error ec hec => exact Or.inr ⟨_, _, rfl⟩
  | raised req b what hh => exact Or.inr ⟨_, _, rfl⟩
  | write_error req b res0 ec hh => exact Or.inr ⟨_, _, rfl⟩
  | need_eof req b res0 n hh hn => exact Or.inr ⟨_, _, rfl⟩
  | next req b res0 n t e hh hn ht => exact Or.inr ⟨_, _, rfl⟩

/-- Every event of a loop trace has the neighbours `Local` describes. -/
theorem LoopTrace.local_at {handler : Handler} {ops : MessageOps} {t : List Event} {e : Exit}
    (h : LoopTrace handler ops t e) :
    ∀ pre x suf, t = pre ++ x :: suf → Local handler ops e pre x suf := by
  induction h with
  | pending => intro pre x suf hx; simp at hx
  | end_of_stream =>
    intro pre x suf hx
    rcases pre with _ | ⟨p1, _ | ⟨p2, pre⟩⟩ <;> simp at hx
    · obtain ⟨rfl, rfl⟩ := hx; simp [Local]
    · obtain ⟨-, rfl, rfl⟩ := hx; simp [Local]
  | read_error ec hec =>
    intro pre x suf hx
    rcases pre with _ | ⟨p1, pre⟩ <;> simp at hx
    obtain ⟨rfl, rfl⟩ := hx
    simp [Local, hec]
  | raised req b what hh =>
    intro pre x suf hx
    rcases pre with _ | ⟨p1, _ | ⟨p2, pre⟩⟩ <;> simp at hx
    · obtain ⟨rfl, rfl⟩ := hx; simp [Local]
    · obtain ⟨rfl, rfl, rfl⟩ := hx
      simp only [Local, hh, and_true]
      exact ⟨[], b, rfl⟩
  | write_error req b res0 ec hh =>
    intro pre x suf hx
    rcases split_triple _ _ _ x pre suf [] hx.symm with ⟨rfl, rfl, rfl⟩ | ⟨rfl, rfl, rfl⟩ |
      ⟨rfl, rfl, rfl⟩ | ⟨pre', -, h4⟩
    · simp [Local]
    · simp only [Local, hh]
      exact ⟨⟨[], b, rfl⟩, _, _, rfl⟩
    · simp only [Local, and_true]
      exact ⟨[], req, b, res0, rfl, hh, rfl⟩
    · simp at h4
  | need_eof req b res0 n hh hn =>
    intro pre x suf hx
    rcases split_triple _ _ _ x pre suf _ hx.symm with ⟨rfl, rfl, rfl⟩ | ⟨rfl, rfl, rfl⟩ |
      ⟨rfl, rfl, rfl⟩ | ⟨pre', rfl, h4⟩
    · simp [Local]
    · simp only [Local, hh]
      exact ⟨⟨[], b, rfl⟩, _, _, rfl⟩
    · simp only [Local, hn, if_true, and_true]
      exact ⟨[], req, b, res0, rfl, hh, rfl⟩
    · rcases pre' with _ | ⟨p1, pre'⟩ <;> simp at h4
      obtain ⟨rfl, rfl⟩ := h4
      simp [Local]
  | next req b res0 n t e hh hn ht ih =>
    intro pre x suf hx
    rcases split_triple _ _ _ x pre suf _ hx.symm with ⟨rfl, rfl, rfl⟩ | ⟨rfl, rfl, rfl⟩ |
      ⟨rfl, rfl, rfl⟩ | ⟨pre', rfl, h4⟩
    · simp [Local]
    · simp only [Local, hh]
      exact ⟨⟨[], b, rfl⟩, _, _, rfl⟩
    · simp only [Local, hn]
      exact ⟨⟨[], req, b, res0, rfl, hh, rfl⟩, by simpa using ht.head⟩
    · have h5 := ih pre' x suf h4.symm
      cases x with
      | read r => cases r <;> exact h5
      | dispatch rq =>
        obtain ⟨⟨p, b', hp⟩, h6⟩ := h5
        exact ⟨⟨.read (.ok req b) :: .dispatch req :: .write (outgoing ops req res0) (.ok n) :: p,
          b', by simp [hp]⟩, h6⟩
      | write rs w =>
        obtain ⟨⟨p, rq, b', r0, hp, h7⟩, h6⟩ := h5
        exact ⟨⟨.read (.ok req b) :: .dispatch req :: .write (outgoing ops req res0) (.ok n) :: p,
          rq, b', r0, by simp [hp], h7⟩, h6⟩
      | shutdown_send => exact h5
      | report_stats s => exact h5

theorem session_trace (k : Bool) (handler : Handler) (ops : MessageOps) (fd t0 t1 : Nat)
    (script : List Cycle) :
    (session k handler ops fd t0 t1 script).trace =
      (session_loop k handler ops script (initial_stats k fd t0)).trace ++
        report_tail k (session_loop k handler ops script (initial_stats k fd t0)) t1 := by
  unfold session report_tail
  cases he : (session_loop k handler ops script (initial_stats k fd t0)).exit <;>
    cases k <;> simp [he]

theorem session_exit (k : Bool) (handler : Handler) (ops : MessageOps) (fd t0 t1 : Nat)
    (script : List Cycle) :
    (session k handler ops fd t0 t1 script).exit =
      (session_loop k handler ops script (initial_stats k fd t0)).exit := by
  unfold session
  cases he : (session_loop k handler ops script (initial_stats k fd t0)).exit <;>
    cases k <;> simp [he]

theorem session_stats_eq (k : Bool) (handler : Handler) (ops : MessageOps) (fd t0 t1 : Nat)
    (script : List Cycle) :
    (session k handler ops fd t0 t1 script).stats =
      if k = true ∧ (session_loop k handler ops script (initial_stats k fd t0)).exit = .finished
      then { (session_loop k handler ops script (initial_stats k fd t0)).stats with
             end_time := t1 }
      else (session_loop k handler ops script (initial_stats k fd t0)).stats := by
  unfold session
  cases he : (session_loop k handler ops script (initial_stats k fd t0)).exit <;>
    cases k <;> simp [he]

/-- An event other than a reporter call splits a session trace inside the
loop trace. -/
theorem split_before_reports (l R pre suf : List Event) (x : Event)
    (hR : ∀ y ∈ R, ∃ s, y = .report_stats s) (hx : ∀ s, x ≠ .report_stats s)
    (h : l ++ R = pre ++ x :: suf) : ∃ suf', l = pre ++ x :: suf' ∧ suf = suf' ++ R := by
  rcases List.append_eq_append_iff.1 h with ⟨a, rfl, ha⟩ | ⟨c, rfl, hc⟩
  · obtain ⟨s, hs⟩ := hR x (by rw [ha]; simp)
    exact absurd hs (hx s)
  · cases c with
    | nil =>
      obtain ⟨s, hs⟩ := hR x (by simp at hc; rw [← hc]; simp)
      exact absurd hs (hx s)
    | cons y c =>
      simp at hc
      obtain ⟨rfl, rfl⟩ := hc
      exact ⟨c, rfl, rfl⟩

theorem report_tail_reports (k : Bool) (r : Run) (t1 : Nat) :
    ∀ y ∈ report_tail k r t1, ∃ s, y = .report_stats s := by
  intro y hy
  unfold report_tail at hy
  split at hy
  · simp at hy; exact ⟨_, hy⟩
  · simp at hy

/-- Every event of a session trace that is not the reporter call sits in the
loop trace, where `Local` describes its neighbours. -/
theorem session_local (k : Bool) (handler : Handler) (ops : MessageOps) (fd t0 t1 : Nat)
    (script : List Cycle) (pre suf : List Event) (x : Event) (hx : ∀ s, x ≠ .report_stats s)
    (h : (session k handler ops fd t0 t1 script).trace = pre ++ x :: suf) :
    ∃ suf', suf = suf' ++
        report_tail k (session_loop k handler ops script (initial_stats k fd t0)) t1 ∧
      Local handler ops (session k handler ops fd t0 t1 script).exit pre x suf' := by
  rw [session_trace] at h
  obtain ⟨suf', h1, h2⟩ := split_before_reports _ _ _ _ _ (report_tail_reports _ _ _) hx h
  refine ⟨suf', h2, ?_⟩
  rw [session_exit]
  exact (session_loop_trace k handler ops script _).local_at pre x suf' h1

/-- The session of `httpmicroservice.cpp` leaves the trace of the loop of
`session.hpp` and ends the same way. -/
theorem cpp_session_eq_loop (k : Bool) (handler : Handler) (ops : MessageOps)
    (script : List Cycle) :
    ∀ st : session_stats,
      cpp.session handler ops script =
        ((session_loop k handler ops script st).trace,
          (session_loop k handler ops script st).exit) := by
  induction script with
  | nil => intro st; simp [cpp.session, cpp.session_loop, session_loop]
  | cons c rest ih =>
    intro st
    cases hr : c.read with
    | fail ec =>
      by_cases he : ec = .end_of_stream
      · subst he
        simp [cpp.session, cpp.session_loop, session_loop, hr]
      · simp [cpp.session, cpp.session_loop, session_loop, hr, he]
    | ok req b =>
      cases hh : handler req with
      | error what => simp [cpp.session, cpp.session_loop, session_loop, hr, hh]
      | ok res0 =>
        cases hw : c.write with
        | fail ec => simp [cpp.session, cpp.session_loop, session_loop, hr, hh, hw]
        | ok n =>
          by_cases hn : ops.need_eof ((ops.prepare_payload res0).set_keep_alive req.keep_alive)
              = true
          · simp [cpp.session, cpp.session_loop, session_loop, hr, hh, hw, hn]
          · have h := ih (count_write k (count_read k st b) n)
            simp only [cpp.session] at h
            rcases hp : cpp.session_loop handler ops rest with ⟨tr, ex⟩
            rw [hp] at h
            cases ex <;>
              simp only [Prod.mk.injEq] at h <;>
              simp [cpp.session, cpp.session_loop, session_loop, hr, hh, hw, hn, hp, ← h.1, ← h.2]

theorem cpp_session_trace (handler : Handler) (ops : MessageOps) (script : List Cycle) :
    LoopTrace handler ops (cpp.session handler ops script).1
      (cpp.session handler ops script).2 := by
  rw [cpp_session_eq_loop false handler ops script session_stats.zero]
  exact session_loop_trace false handler ops script _

theorem LoopTrace.shutdown_iff {handler : Handler} {ops : MessageOps} {t : List Event}
    {e : Exit} (h : LoopTrace handler ops t e) :
    Event.shutdown_send ∈ t ↔
      (Event.read (.fail .end_of_stream) ∈ t ∨
        ∃ res n, Event.write res (.ok n) ∈ t ∧ ops.need_eof res = true) := by
  induction h with
  | pending => simp
  | end_of_stream => simp
  | read_error ec hec => simp [Ne.symm hec]
  | raised req b what hh => simp
  | write_error req b res0 ec hh => simp
  | need_eof req b res0 n hh hn =>
    refine ⟨fun _ => Or.inr ⟨outgoing ops req res0, n, by simp, hn⟩, fun _ => by simp⟩
  | next req b res0 n t e hh hn ht ih =>
    simp only [List.mem_cons, reduceCtorEq, false_or, ih, Event.read.injEq, Event.write.injEq,
      WriteResult.ok.injEq]
    constructor
    · rintro (h1 | ⟨res, m, h2, h3⟩)
      · exact Or.inl h1
      · exact Or.inr ⟨res, m, Or.inr h2, h3⟩
    · rintro (h1 | ⟨res, m, h2 | h2, h3⟩)
      · exact Or.inl h1
      · obtain ⟨rfl, -⟩ := h2
        rw [hn] at h3
        exact absurd h3 (by simp)
      · exact Or.inr ⟨res, m, h2, h3⟩

theorem LoopTrace.shutdown_last {handler : Handler} {ops : MessageOps} {t : List Event}
    {e : Exit} (h : LoopTrace handler ops t e) :
    Event.shutdown_send ∈ t → t.getLast? = some .shutdown_send := by
  induction h with
  | pending => simp
  | end_of_stream => simp
  | read_error ec hec => simp
  | raised req b what hh => simp
  | write_error req b res0 ec hh => simp
  | need_eof req b res0 n hh hn => simp
  | next req b res0 n t e hh hn ht ih =>
    intro hm
    simp only [List.mem_cons, reduceCtorEq, false_or] at hm
    have h2 := ih hm
    cases t with
    | nil => simp at hm
    | cons y t => simpa [List.getLast?_cons_cons] using h2

/-- After a loop that finished, the reporter is called, when there is one,
with the record the session ends with. -/
theorem report_tail_finished (k : Bool) (handler : Handler) (ops : MessageOps) (fd t0 t1 : Nat)
    (script : List Cycle) (h : (session k handler ops fd t0 t1 script).exit = .finished) :
    report_tail k (session_loop k handler ops script (initial_stats k fd t0)) t1 =
      if k = true then [.report_stats (session k handler ops fd t0 t1 script).stats] else [] := by
  rw [session_exit] at h
  rw [session_stats_eq]
  unfold report_tail
  cases k <;> simp [h]

/-- The event before a write is the dispatch of the request the response
answers. -/
theorem write_after (handler : Handler) (ops : MessageOps) (e : Exit) (pre suf : List Event)
    (req : request) (b : Nat) (res : response) (w : WriteResult)
    (h : Local handler ops e (pre ++ [.read (.ok req b), .dispatch req]) (.write res w) suf) :
    ∃ res0, handler req = .ok res0 ∧ res = outgoing ops req res0 := by
  obtain ⟨⟨pre', req', b', res0, h1, h2, h3⟩, -⟩ := h
  have h4 := (List.append_inj' h1 rfl).2
  simp only [List.cons.injEq, Event.read.injEq, ReadResult.ok.injEq, Event.dispatch.injEq,
    and_true] at h4
  obtain ⟨⟨rfl, rfl⟩, -⟩ := h4
  exact ⟨res0, h2, h3⟩

/-! ## Keep-alive of the response that is written -/

/-- After the successful read of `req`, when the handler returns `res0` for
it, a loop trace goes on with the handler call and the write of
`outgoing ops req res0`. -/
theorem LoopTrace.read_then_write {handler : Handler} {ops : MessageOps} {t : List Event}
    {e : Exit} (h : LoopTrace handler ops t e) (pre suf : List Event) (req : request) (b : Nat)
    (res0 : response) (ht : t = pre ++ .read (.ok req b) :: suf) (hh : handler req = .ok res0) :
    ∃ w suf', suf = .dispatch req :: .write (outgoing ops req res0) w :: suf' := by
  obtain ⟨suf1, rfl⟩ := h.local_at pre _ suf ht
  have ht' : t = (pre ++ [.read (.ok req b)]) ++ .dispatch req :: suf1 := by simp [ht]
  have h2 := (h.local_at _ _ suf1 ht').2
  rw [hh] at h2
  obtain ⟨w, suf2, rfl⟩ := h2
  exact ⟨w, suf2, rfl⟩

/-- C1: in the session of `session.hpp` and in the session of
`httpmicroservice.cpp`, after every successful read of a request `req` for
which the handler returns `res0`, the session calls the handler on `req` and
hands to the write step the response `res0` with payload prepared and
keep-alive set to `req.keep_alive`; and every write event of the trace comes
right after such a read and handler call, so the keep-alive flag of a written
response equals the request's negotiated value whatever the handler
returned. -/
theorem session_write_keep_alive (k : Bool) (handler : Handler) (ops : MessageOps)
    (fd t0 t1 : Nat) (script : List Cycle) :
    (∀ pre req b suf res0,
      (session k handler ops fd t0 t1 script).trace = pre ++ .read (.ok req b) :: suf →
      handler req = .ok res0 →
      ∃ w suf', suf = .dispatch req ::
          .write ((ops.prepare_payload res0).set_keep_alive req.keep_alive) w :: suf' ∧
        ((ops.prepare_payload res0).set_keep_alive req.keep_alive).keep_alive =
          req.keep_alive) ∧
    (∀ pre req b suf res0,
      (cpp.session handler ops script).1 = pre ++ .read (.ok req b) :: suf →
      handler req = .ok res0 →
      ∃ w suf', suf = .dispatch req ::
          .write ((ops.prepare_payload res0).set_keep_alive req.keep_alive) w :: suf' ∧
        ((ops.prepare_payload res0).set_keep_alive req.keep_alive).keep_alive =
          req.keep_alive) ∧
    (∀ pre res w suf,
      (session k handler ops fd t0 t1 script).trace = pre ++ .write res w :: suf →
      ∃ pre' req b res0, pre = pre' ++ [.read (.ok req b), .dispatch req] ∧
        handler req = .ok res0 ∧
        res = (ops.prepare_payload res0).set_keep_alive req.keep_alive ∧
        res.keep_alive = req.keep_alive) ∧
    (∀ pre res w suf,
      (cpp.session handler ops script).1 = pre ++ .write res w :: suf →
      ∃ pre' req b res0, pre = pre' ++ [.read (.ok req b), .dispatch req] ∧
        handler req = .ok res0 ∧
        res = (ops.prepare_payload res0).set_keep_alive req.keep_alive ∧
        res.keep_alive = req.keep_alive) := by
  refine ⟨?_, ?_, ?_, ?_⟩
  · intro pre req b suf res0 h hh
    rw [session_trace] at h
    obtain ⟨suf1, h1, rfl⟩ := split_before_reports _ _ _ _ _ (report_tail_reports _ _ _)
      (fun s => by simp) h
    obtain ⟨w, suf2, rfl⟩ := (session_loop_trace k handler ops script _).read_then_write
      pre suf1 req b res0 h1 hh
    exact ⟨w, suf2 ++ report_tail k _ t1, rfl, rfl⟩
  · intro pre req b suf res0 h hh
    obtain ⟨w, suf2, rfl⟩ := (cpp_session_trace handler ops script).read_then_write
      pre suf req b res0 h hh
    exact ⟨w, suf2, rfl, rfl⟩
  · intro pre res w suf h
    obtain ⟨suf', -, hl⟩ := session_local k handler ops fd t0 t1 script pre suf _
      (fun s => by simp) h
    obtain ⟨⟨pre', req, b, res0, h1, h2, h3⟩, -⟩ := hl
    exact ⟨pre', req, b, res0, h1, h2, h3, by rw [h3]; rfl⟩
  · intro pre res w suf h
    obtain ⟨⟨pre', req, b, res0, h1, h2, h3⟩, -⟩ :=
      (cpp_session_trace handler ops script).local_at pre _ suf h
    exact ⟨pre', req, b, res0, h1, h2, h3, by rw [h3]; rfl⟩

/-- Witness for C1: the second request of `sample.two_requests` asks to close,
the handler asks for keep-alive on every response, and the write of the second
response is preceded by that request's read and dispatch and carries the
request's keep-alive value. -/
theorem session_write_keep_alive_witness :
    (session true sample.eager_handler sample.ops 3 100 200 sample.two_requests).trace =
      sample.two_requests_start ++ .write sample.eager_second (.ok 90) ::
        [.shutdown_send, .report_stats sample.two_requests_stats] ∧
    sample.get_close.keep_alive = false ∧
    ((examples.echo sample.get_close).set_keep_alive true).keep_alive = true ∧
    (∃ pre' req b res0,
      sample.two_requests_start = pre' ++ [.read (.ok req b), .dispatch req] ∧
      sample.eager_handler req = .ok res0 ∧
      sample.eager_second = (sample.ops.prepare_payload res0).set_keep_alive req.keep_alive ∧
      sample.eager_second.keep_alive = req.keep_alive) ∧
    ∃ w suf',
      [Event.dispatch sample.get_close, .write sample.eager_second (.ok 90), .shutdown_send,
        .report_stats sample.two_requests_stats] =
        .dispatch sample.get_close ::
          .write ((sample.ops.prepare_payload
            ((examples.echo sample.get_close).set_keep_alive true)).set_keep_alive
              sample.get_close.keep_alive) w :: suf' ∧
      ((sample.ops.prepare_payload
        ((examples.echo sample.get_close).set_keep_alive true)).set_keep_alive
          sample.get_close.keep_alive).keep_alive = sample.get_close.keep_alive :=
  ⟨by decide, by decide, by decide,
   (session_write_keep_alive true sample.eager_handler sample.ops 3 100 200
      sample.two_requests).2.2.1 sample.two_requests_start sample.eager_second (.ok 90)
      [.shutdown_send, .report_stats sample.two_requests_stats] (by decide),
   (session_write_keep_alive true sample.eager_handler sample.ops 3 100 200
      sample.two_requests).1 sample.first_cycle sample.get_close 40
      [.dispatch sample.get_close, .write sample.eager_second (.ok 90), .shutdown_send,
        .report_stats sample.two_requests_stats]
      ((examples.echo sample.get_close).set_keep_alive true) (by decide) rfl⟩

/-! ## Closing after a response -/

/-- C2: when a response needs EOF as soon as its keep-alive flag is false, in
both sessions a cycle whose request negotiated no keep-alive and whose write
succeeded is followed by the half-close of the send direction and by no other
read, handler call or write (only by the reporter call, when there is one);
and a read follows a successful write only when the written response does not
need EOF. -/
theorem session_close_after_write (k : Bool) (handler : Handler) (ops : MessageOps)
    (fd t0 t1 : Nat) (script : List Cycle)
    (hne : ∀ res : response, res.keep_alive = false → ops.need_eof res = true) :
    (∀ pre req b res n suf,
      (session k handler ops fd t0 t1 script).trace =
        pre ++ [.read (.ok req b), .dispatch req, .write res (.ok n)] ++ suf →
      req.keep_alive = false →
      suf = .shutdown_send ::
        (if k = true then [.report_stats (session k handler ops fd t0 t1 script).stats]
         else [])) ∧
    (∀ pre req b res n suf,
      (cpp.session handler ops script).1 =
        pre ++ [.read (.ok req b), .dispatch req, .write res (.ok n)] ++ suf →
      req.keep_alive = false → suf = [.shutdown_send]) ∧
    (∀ pre res n r suf,
      (session k handler ops fd t0 t1 script).trace =
        pre ++ [.write res (.ok n), .read r] ++ suf →
      ops.need_eof res = false) ∧
    (∀ pre res n r suf,
      (cpp.session handler ops script).1 = pre ++ [.write res (.ok n), .read r] ++ suf →
      ops.need_eof res = false) := by
  refine ⟨?_, ?_, ?_, ?_⟩
  · intro pre req b res n suf h hka
    have h' : (session k handler ops fd t0 t1 script).trace =
        (pre ++ [.read (.ok req b), .dispatch req]) ++ .write res (.ok n) :: suf := by
      simp [h]
    obtain ⟨suf', h1, hl⟩ := session_local k handler ops fd t0 t1 script _ suf _
      (fun s => by simp) h'
    obtain ⟨res0, -, h3⟩ := write_after handler ops _ pre suf' req b res _ hl
    have hn : ops.need_eof res = true := hne res (by rw [h3]; exact hka)
    have h4 := hl.2
    simp only [hn, if_true] at h4
    rw [h1, h4.1, report_tail_finished k handler ops fd t0 t1 script h4.2]
    rfl
  · intro pre req b res n suf h hka
    have h' : (cpp.session handler ops script).1 =
        (pre ++ [.read (.ok req b), .dispatch req]) ++ .write res (.ok n) :: suf := by
      simp [h]
    have hl := (cpp_session_trace handler ops script).local_at _ _ suf h'
    obtain ⟨res0, -, h3⟩ := write_after handler ops _ pre suf req b res _ hl
    have hn : ops.need_eof res = true := hne res (by rw [h3]; exact hka)
    have h4 := hl.2
    simp only [hn, if_true] at h4
    exact h4.1
  · intro pre res n r suf h
    have h' : (session k handler ops fd t0 t1 script).trace =
        pre ++ .write res (.ok n) :: (.read r :: suf) := by
      simp [h]
    obtain ⟨suf', h1, hl⟩ := session_local k handler ops fd t0 t1 script _ _ _
      (fun s => by simp) h'
    have h4 := hl.2
    cases hn : ops.need_eof res with
    | false => rfl
    | true =>
      simp only [hn, if_true] at h4
      rw [h4.1] at h1
      simp at h1
  · intro pre res n r suf h
    have h' : (cpp.session handler ops script).1 =
        pre ++ .write res (.ok n) :: (.read r :: suf) := by
      simp [h]
    have hl := (cpp_session_trace handler ops script).local_at _ _ _ h'
    have h4 := hl.2
    cases hn : ops.need_eof res with
    | false => rfl
    | true =>
      simp only [hn, if_true] at h4
      simp at h4

/-- Witness for C2: with `sample.ops`, the second cycle of
`sample.two_requests` (a request with `Connection: close`) is followed by the
half-close and the reporter call only, and the read after the first write
comes with a first response that does not need EOF. -/
theorem session_close_after_write_witness :
    sample.get_close.keep_alive = false ∧
    [Event.shutdown_send, .report_stats sample.two_requests_stats] =
      .shutdown_send ::
        (if true = true then
          [.report_stats (session true sample.eager_handler sample.ops 3 100 200
            sample.two_requests).stats]
         else []) ∧
    sample.ops.need_eof sample.eager_first = false :=
  have hne : ∀ res : response, res.keep_alive = false → sample.ops.need_eof res = true := by
    intro res h
    simp [sample.ops, h]
  ⟨by decide,
   (session_close_after_write true sample.eager_handler sample.ops 3 100 200
      sample.two_requests hne).1 sample.first_cycle sample.get_close 40 sample.eager_second 90
      [.shutdown_send, .report_stats sample.two_requests_stats] (by decide) (by decide),
   (session_close_after_write true sample.eager_handler sample.ops 3 100 200
      sample.two_requests hne).2.2.1 [.read (.ok sample.post_reverse 60),
        .dispatch sample.post_reverse] sample.eager_first 80 (.ok sample.get_close 40)
      [.dispatch sample.get_close, .write sample.eager_second (.ok 90), .shutdown_send,
        .report_stats sample.two_requests_stats] (by decide)⟩

/-! ## Requests are served in order -/

theorem session_loop_served_next (k : Bool) (handler : Handler) (ops : MessageOps)
    (it : Served) (rest : List Cycle) (st : session_stats)
    (hh : handler it.req = .ok it.res0)
    (hn : ops.need_eof (outgoing ops it.req it.res0) = false) :
    session_loop k handler ops (it.cycle :: rest) st =
      { session_loop k handler ops rest (it.count k st) with
        trace := it.events ops ++ (session_loop k handler ops rest (it.count k st)).trace } := by
  simp only [outgoing] at hn
  simp [session_loop, Served.cycle, Served.events, Served.count, outgoing, hh, hn]

theorem session_loop_served_eof (k : Bool) (handler : Handler) (ops : MessageOps)
    (it : Served) (rest : List Cycle) (st : session_stats)
    (hh : handler it.req = .ok it.res0)
    (hn : ops.need_eof (outgoing ops it.req it.res0) = true) :
    session_loop k handler ops (it.cycle :: rest) st =
      { trace := it.events ops ++ [.shutdown_send], stats := it.count k st,
        exit := .finished } := by
  simp only [outgoing] at hn
  simp [session_loop, Served.cycle, Served.events, Served.count, outgoing, hh, hn]

theorem session_loop_served (k : Bool) (handler : Handler) (ops : MessageOps)
    (init : List Served) (last : Served) (rest : List Cycle)
    (hh : ∀ it ∈ init ++ [last], handler it.req = .ok it.res0)
    (hn : ∀ it ∈ init, ops.need_eof (outgoing ops it.req it.res0) = false) :
    ∀ st : session_stats,
      session_loop k handler ops ((init ++ [last]).map Served.cycle ++ rest) st =
        if ops.need_eof (outgoing ops last.req last.res0) = true then
          { trace := (init ++ [last]).flatMap (Served.events ops) ++ [.shutdown_send],
            stats := (init ++ [last]).foldl (Served.count k) st,
            exit := .finished }
        else
          { session_loop k handler ops rest ((init ++ [last]).foldl (Served.count k) st) with
            trace := (init ++ [last]).flatMap (Served.events ops) ++
              (session_loop k handler ops rest
                ((init ++ [last]).foldl (Served.count k) st)).trace } := by
  induction init with
  | nil =>
    intro st
    have hl : handler last.req = .ok last.res0 := hh last (by simp)
    cases hne : ops.need_eof (outgoing ops last.req last.res0) with
    | true => simp [session_loop_served_eof k handler ops last rest st hl hne]
    | false => simp [session_loop_served_next k handler ops last rest st hl hne]
  | cons it init ih =>
    intro st
    have h1 : handler it.req = .ok it.res0 := hh it (by simp)
    have h2 : ops.need_eof (outgoing ops it.req it.res0) = false := hn it (by simp)
    have h3 := ih (fun x hx => hh x (by simp at hx ⊢; tauto)) (fun x hx => hn x (by simp [hx]))
      (it.count k st)
    simp only [List.cons_append, List.map_cons, List.flatMap_cons, List.foldl_cons]
    rw [session_loop_served_next k handler ops it _ st h1 h2, h3]
    split <;> simp

theorem LoopTrace.nil_pending {handler : Handler} {ops : MessageOps} {t : List Event}
    {e : Exit} (h : LoopTrace handler ops t e) (ht : t = []) : e = .pending := by
  cases h <;> simp_all

theorem served_dispatched (ops : MessageOps) (items : List Served) :
    (items.flatMap (Served.events ops)).filterMap Event.dispatched =
      items.map (fun it => it.req) := by
  induction items with
  | nil => rfl
  | cons it items ih =>
    simp [List.flatMap_cons, List.filterMap_append, ih, Served.events, List.filterMap_cons,
      Event.dispatched]

theorem served_written (ops : MessageOps) (items : List Served) :
    (items.flatMap (Served.events ops)).filterMap Event.written =
      items.map (fun it => outgoing ops it.req it.res0) := by
  induction items with
  | nil => rfl
  | cons it items ih =>
    simp [List.flatMap_cons, List.filterMap_append, ih, Served.events, List.filterMap_cons,
      Event.written]

/-- C3: when the first reads of a connection deliver the requests of
`init ++ [last]`, the handler returns a response for each, every write
succeeds and no response before the last needs EOF, the trace of the session
of `session.hpp` starts with read, dispatch, write for the first request, then
read, dispatch, write for the second, and so on: the handler is called once per
request in read order and the responses written are the handler's, payload
prepared and keep-alive forced, in the same order.  What follows is the
half-close when the last response needs EOF, and otherwise nothing or the
next read. -/
theorem session_serves_in_order (k : Bool) (handler : Handler) (ops : MessageOps)
    (fd t0 t1 : Nat) (init : List Served) (last : Served) (rest : List Cycle)
    (hh : ∀ it ∈ init ++ [last], handler it.req = .ok it.res0)
    (hn : ∀ it ∈ init, ops.need_eof (outgoing ops it.req it.res0) = false) :
    ∃ tail,
      (session k handler ops fd t0 t1 ((init ++ [last]).map Served.cycle ++ rest)).trace =
        (init ++ [last]).flatMap (Served.events ops) ++ tail ∧
      (if ops.need_eof (outgoing ops last.req last.res0) = true then
        ∃ reports, tail = .shutdown_send :: reports ∧ ∀ y ∈ reports, ∃ s, y = .report_stats s
       else tail = [] ∨ ∃ r t, tail = .read r :: t) ∧
      ((init ++ [last]).flatMap (Served.events ops)).filterMap Event.dispatched =
        (init ++ [last]).map (fun it => it.req) ∧
      ((init ++ [last]).flatMap (Served.events ops)).filterMap Event.written =
        (init ++ [last]).map (fun it => outgoing ops it.req it.res0) := by
  have hs := session_loop_served k handler ops init last rest hh hn (initial_stats k fd t0)
  have ht := session_trace k handler ops fd t0 t1 ((init ++ [last]).map Served.cycle ++ rest)
  have hrep := report_tail_reports k
    (session_loop k handler ops ((init ++ [last]).map Served.cycle ++ rest)
      (initial_stats k fd t0)) t1
  cases hne : ops.need_eof (outgoing ops last.req last.res0) with
  | true =>
    simp only [hne, if_true] at hs
    generalize report_tail k
      (session_loop k handler ops ((init ++ [last]).map Served.cycle ++ rest)
        (initial_stats k fd t0)) t1 = R at ht hrep
    rw [hs] at ht
    refine ⟨.shutdown_send :: R, ?_, ?_, served_dispatched _ _, served_written _ _⟩
    · rw [ht]; simp
    · simp only [if_true]
      exact ⟨R, rfl, hrep⟩
  | false =>
    simp only [hne] at hs
    have hl := session_loop_trace k handler ops rest
      ((init ++ [last]).foldl (Served.count k) (initial_stats k fd t0))
    have hx : (session_loop k handler ops ((init ++ [last]).map Served.cycle ++ rest)
        (initial_stats k fd t0)).exit =
        (session_loop k handler ops rest
          ((init ++ [last]).foldl (Served.count k) (initial_stats k fd t0))).exit := by
      rw [hs]; simp
    have hr : ∀ R : List Event,
        (session_loop k handler ops ((init ++ [last]).map Served.cycle ++ rest)
          (initial_stats k fd t0)).trace ++ R =
        (init ++ [last]).flatMap (Served.events ops) ++
          ((session_loop k handler ops rest
            ((init ++ [last]).foldl (Served.count k) (initial_stats k fd t0))).trace ++ R) := by
      intro R; rw [hs]; simp
    rw [hr] at ht
    refine ⟨_, ht, ?_, served_dispatched _ _, served_written _ _⟩
    simp only [Bool.false_eq_true, if_false]
    rcases hl.head with h0 | ⟨r, t, h1⟩
    · left
      have hp := hl.nil_pending h0
      have hnil : report_tail k
          (session_loop k handler ops ((init ++ [last]).map Served.cycle ++ rest)
            (initial_stats k fd t0)) t1 = [] := by
        unfold report_tail
        rw [hx, hp]
        simp
      rw [h0, hnil]
      rfl
    · right
      rw [h1]
      exact ⟨r, _, rfl⟩

/-- Witness for C3: the two cycles of `sample.two_requests` under
`sample.eager_handler`. -/
theorem session_serves_in_order_witness :
    ∃ tail,
      (session true sample.eager_handler sample.ops 3 100 200
        (([sample.served_first] ++ [sample.served_second]).map Served.cycle ++ [])).trace =
        ([sample.served_first] ++ [sample.served_second]).flatMap
          (Served.events sample.ops) ++ tail ∧
      (if sample.ops.need_eof
          (outgoing sample.ops sample.served_second.req sample.served_second.res0) = true then
        ∃ reports, tail = .shutdown_send :: reports ∧ ∀ y ∈ reports, ∃ s, y = .report_stats s
       else tail = [] ∨ ∃ r t, tail = .read r :: t) ∧
      (([sample.served_first] ++ [sample.served_second]).flatMap
          (Served.events sample.ops)).filterMap Event.dispatched =
        ([sample.served_first] ++ [sample.served_second]).map (fun it => it.req) ∧
      (([sample.served_first] ++ [sample.served_second]).flatMap
          (Served.events sample.ops)).filterMap Event.written =
        ([sample.served_first] ++ [sample.served_second]).map
          (fun it => outgoing sample.ops it.req it.res0) :=
  session_serves_in_order true sample.eager_handler sample.ops 3 100 200
    [sample.served_first] sample.served_second []
    (by intro it hit; simp at hit; rcases hit with rfl | rfl <;> rfl) (by decide)

/-! ## Read errors -/

/-- C4: in the session of `session.hpp`, a read that reports an error is
followed by no handler call, no write and no further read, and the session
ends without raising: after `end_of_stream` the only actions left are the
half-close of the send direction and the reporter call when there is one;
after any other error only the reporter call, with no half-close. -/
theorem session_read_error (k : Bool) (handler : Handler) (ops : MessageOps)
    (fd t0 t1 : Nat) (script : List Cycle) (pre : List Event) (ec : error_code)
    (suf : List Event)
    (h : (session k handler ops fd t0 t1 script).trace = pre ++ .read (.fail ec) :: suf) :
    (session k handler ops fd t0 t1 script).exit = .finished ∧
    suf = (if ec = .end_of_stream then [.shutdown_send] else []) ++
      (if k = true then [.report_stats (session k handler ops fd t0 t1 script).stats]
       else []) := by
  obtain ⟨suf', h1, h2, h3⟩ := session_local k handler ops fd t0 t1 script pre suf _
    (fun s => by simp) h
  refine ⟨h3, ?_⟩
  rw [h1, h2, report_tail_finished k handler ops fd t0 t1 script h3]

/-- Witness for C4: after one served request the peer closes the connection
(half-close, then the report), or sends an oversized message (the report
only). -/
theorem session_read_error_witness :
    ((session true sample.echo_handler sample.ops 3 100 200 sample.request_then_eof).exit =
        .finished ∧
      [Event.shutdown_send, .report_stats sample.one_request_stats] =
        (if error_code.end_of_stream = .end_of_stream then [.shutdown_send] else []) ++
          (if true = true then
            [.report_stats (session true sample.echo_handler sample.ops 3 100 200
              sample.request_then_eof).stats]
           else [])) ∧
    ((session true sample.echo_handler sample.ops 3 100 200
        sample.request_then_overflow).exit = .finished ∧
      [Event.report_stats sample.one_request_stats] =
        (if error_code.buffer_overflow = .end_of_stream then [.shutdown_send] else []) ++
          (if true = true then
            [.report_stats (session true sample.echo_handler sample.ops 3 100 200
              sample.request_then_overflow).stats]
           else [])) :=
  ⟨session_read_error true sample.echo_handler sample.ops 3 100 200 sample.request_then_eof
      sample.echo_cycle .end_of_stream
      [.shutdown_send, .report_stats sample.one_request_stats] (by decide),
   session_read_error true sample.echo_handler sample.ops 3 100 200
      sample.request_then_overflow sample.echo_cycle .buffer_overflow
      [.report_stats sample.one_request_stats] (by decide)⟩

/-! ## The reporter call -/

theorem LoopTrace.no_report {handler : Handler} {ops : MessageOps} {t : List Event}
    {e : Exit} (h : LoopTrace handler ops t e) : t.filter Event.is_report = [] := by
  induction h with
  | pending => rfl
  | end_of_stream => rfl
  | read_error ec hec => rfl
  | raised req b what hh => rfl
  | write_error req b res0 ec hh => rfl
  | need_eof req b res0 n hh hn => rfl
  | next req b res0 n t e hh hn ht ih => simpa [List.filter_cons, Event.is_report] using ih

/-- C5, as the counterexample shows it must be amended: with a reporter, when
the session of `session.hpp` finishes (its loop was left by `break`) the trace
holds exactly one reporter call, it is the last event, and it carries the final
record with `end_time` stamped; the loop is left that way after a failed read
(`end_of_stream` or any other error), after a failed write and after the write
of a response that needs EOF.  When the handler raises, the error leaves the
session and the trace holds no reporter call. -/
theorem session_report_once (handler : Handler) (ops : MessageOps) (fd t0 t1 : Nat)
    (script : List Cycle) :
    ((session true handler ops fd t0 t1 script).exit = .finished →
      (session true handler ops fd t0 t1 script).trace.filter Event.is_report =
        [.report_stats (session true handler ops fd t0 t1 script).stats] ∧
      (session true handler ops fd t0 t1 script).trace.getLast? =
        some (.report_stats (session true handler ops fd t0 t1 script).stats) ∧
      (session true handler ops fd t0 t1 script).stats.end_time = t1) ∧
    (∀ ec, .read (.fail ec) ∈ (session true handler ops fd t0 t1 script).trace →
      (session true handler ops fd t0 t1 script).exit = .finished) ∧
    (∀ res ec, .write res (.fail ec) ∈ (session true handler ops fd t0 t1 script).trace →
      (session true handler ops fd t0 t1 script).exit = .finished) ∧
    (∀ res n, .write res (.ok n) ∈ (session true handler ops fd t0 t1 script).trace →
      ops.need_eof res = true → (session true handler ops fd t0 t1 script).exit = .finished) ∧
    (∀ what, (session true handler ops fd t0 t1 script).exit = .raised what →
      (session true handler ops fd t0 t1 script).trace.filter Event.is_report = []) := by
  have hl := session_loop_trace true handler ops script (initial_stats true fd t0)
  have ht := session_trace true handler ops fd t0 t1 script
  have hst := session_stats_eq true handler ops fd t0 t1 script
  refine ⟨?_, ?_, ?_, ?_, ?_⟩
  · intro hf
    have hr := report_tail_finished true handler ops fd t0 t1 script hf
    rw [hr] at ht
    rw [session_exit] at hf
    refine ⟨?_, ?_, ?_⟩
    · rw [ht, List.filter_append, hl.no_report]
      simp [Event.is_report]
    · rw [ht]
      simp
    · rw [hst]
      simp [hf]
  · intro ec hm
    obtain ⟨pre, suf, hd⟩ := List.append_of_mem hm
    obtain ⟨suf', -, -, h3⟩ := session_local true handler ops fd t0 t1 script pre suf _
      (fun s => by simp) hd
    exact h3
  · intro res ec hm
    obtain ⟨pre, suf, hd⟩ := List.append_of_mem hm
    obtain ⟨suf', -, -, h3⟩ := session_local true handler ops fd t0 t1 script pre suf _
      (fun s => by simp) hd
    exact h3.2
  · intro res n hm hn
    obtain ⟨pre, suf, hd⟩ := List.append_of_mem hm
    obtain ⟨suf', -, -, h3⟩ := session_local true handler ops fd t0 t1 script pre suf _
      (fun s => by simp) hd
    simp only [hn, if_true] at h3
    exact h3.2
  · intro what hw
    rw [session_exit] at hw
    rw [ht, List.filter_append, hl.no_report]
    simp [report_tail, hw]

/-- Witness for C5: the run over `sample.request_then_eof` finishes and holds
one reporter call, the last event, with the final record. -/
theorem session_report_once_witness :
    (session true sample.echo_handler sample.ops 3 100 200
        sample.request_then_eof).trace.filter Event.is_report =
      [.report_stats sample.one_request_stats] ∧
    (session true sample.echo_handler sample.ops 3 100 200
        sample.request_then_eof).trace.getLast? =
      some (.report_stats sample.one_request_stats) ∧
    (session true sample.echo_handler sample.ops 3 100 200
        sample.request_then_eof).stats.end_time = 200 :=
  (session_report_once sample.echo_handler sample.ops 3 100 200 sample.request_then_eof).1
    (by decide)

/-- Counterexample to C5 as stated: under `sample.failing_handler` the second
request of `sample.two_requests` makes the handler raise; the session ends with
that error after one completed cycle and the reporter is never called. -/
theorem session_report_counterexample :
    (session true sample.failing_handler sample.ops 3 100 200 sample.two_requests).exit =
      .raised "handler failed" ∧
    (session true sample.failing_handler sample.ops 3 100 200 sample.two_requests).trace =
      sample.echo_cycle ++ [.read (.ok sample.get_close 40), .dispatch sample.get_close] ∧
    (session true sample.failing_handler sample.ops 3 100 200
        sample.two_requests).trace.filter Event.is_report = [] := by
  decide

/-! ## Statistics -/

theorem session_loop_stats (handler : Handler) (ops : MessageOps) (script : List Cycle) :
    ∀ st : session_stats,
      (session_loop true handler ops script st).stats.num_request =
        st.num_request + completed (session_loop true handler ops script st).trace ∧
      st.bytes_read ≤ (session_loop true handler ops script st).stats.bytes_read ∧
      st.bytes_write ≤ (session_loop true handler ops script st).stats.bytes_write := by
  induction script with
  | nil => intro st; simp [session_loop, completed]
  | cons c rest ih =>
    intro st
    cases hr : c.read with
    | fail ec =>
      by_cases he : ec = .end_of_stream
      · subst he
        simp [session_loop, hr, completed, Event.is_completion]
      · simp [session_loop, hr, he, completed, Event.is_completion]
    | ok req b =>
      cases hh : handler req with
      | error what =>
        simp [session_loop, hr, hh, completed, Event.is_completion, count_read]
      | ok res0 =>
        cases hw : c.write with
        | fail ec =>
          simp [session_loop, hr, hh, hw, completed, Event.is_completion, count_read]
        | ok n =>
          by_cases hn : ops.need_eof ((ops.prepare_payload res0).set_keep_alive req.keep_alive)
              = true
          · simp [session_loop, hr, hh, hw, hn, completed, Event.is_completion, count_read,
              count_write]
          · obtain ⟨h1, h2, h3⟩ := ih (count_write true (count_read true st b) n)
            simp only [session_loop, hr, hh, hw, hn, Bool.false_eq_true, if_false]
            refine ⟨?_, ?_, ?_⟩
            · rw [h1]
              simp [completed, Event.is_completion, count_read, count_write, List.countP_cons]
              omega
            · refine le_trans ?_ h2
              simp [count_read, count_write]
            · refine le_trans ?_ h3
              simp [count_read, count_write]

/-- Running the loop over a longer script continues the run over the shorter
one when that run is still pending, and changes nothing otherwise. -/
theorem session_loop_append (k : Bool) (handler : Handler) (ops : MessageOps)
    (script ext : List Cycle) :
    ∀ st : session_stats,
      session_loop k handler ops (script ++ ext) st =
        if (session_loop k handler ops script st).exit = .pending then
          { session_loop k handler ops ext (session_loop k handler ops script st).stats with
            trace := (session_loop k handler ops script st).trace ++
              (session_loop k handler ops ext
                (session_loop k handler ops script st).stats).trace }
        else session_loop k handler ops script st := by
  induction script with
  | nil => intro st; simp [session_loop]
  | cons c rest ih =>
    intro st
    cases hr : c.read with
    | fail ec =>
      by_cases he : ec = .end_of_stream
      · subst he
        simp [session_loop, hr]
      · simp [session_loop, hr, he]
    | ok req b =>
      cases hh : handler req with
      | error what => simp [session_loop, hr, hh]
      | ok res0 =>
        cases hw : c.write with
        | fail ec => simp [session_loop, hr, hh, hw]
        | ok n =>
          by_cases hn : ops.need_eof ((ops.prepare_payload res0).set_keep_alive req.keep_alive)
              = true
          · simp [session_loop, hr, hh, hw, hn]
          · have h := ih (count_write k (count_read k st b) n)
            rw [List.cons_append]
            simp only [session_loop, hr, hh, hw, hn, Bool.false_eq_true, if_false]
            rw [h]
            split <;> simp

theorem session_bytes (k : Bool) (handler : Handler) (ops : MessageOps) (fd t0 t1 : Nat)
    (script : List Cycle) :
    (session k handler ops fd t0 t1 script).stats.bytes_read =
      (session_loop k handler ops script (initial_stats k fd t0)).stats.bytes_read ∧
    (session k handler ops fd t0 t1 script).stats.bytes_write =
      (session_loop k handler ops script (initial_stats k fd t0)).stats.bytes_write := by
  rw [session_stats_eq]
  split <;> simp

/-- C6: with statistics enabled, the record handed to the reporter by the
session of `session.hpp` has `num_request` equal to the number of cycles of
the run in which the read, the handler and the write all succeeded; and the
cumulative `bytes_read` and `bytes_write` never decrease as the run goes on
over further cycles, each update adding the byte count of the read or of the
write. -/
theorem session_stats_counts (handler : Handler) (ops : MessageOps) (fd t0 t1 : Nat)
    (script : List Cycle) :
    (∀ s, .report_stats s ∈ (session true handler ops fd t0 t1 script).trace →
      s.num_request = completed (session true handler ops fd t0 t1 script).trace) ∧
    (∀ ext,
      (session true handler ops fd t0 t1 script).stats.bytes_read ≤
        (session true handler ops fd t0 t1 (script ++ ext)).stats.bytes_read ∧
      (session true handler ops fd t0 t1 script).stats.bytes_write ≤
        (session true handler ops fd t0 t1 (script ++ ext)).stats.bytes_write) ∧
    (∀ st n, (count_read true st n).bytes_read = st.bytes_read + n ∧
      (count_write true st n).bytes_write = st.bytes_write + n ∧
      (count_write true st n).num_request = st.num_request + 1) := by
  have hl := session_loop_trace true handler ops script (initial_stats true fd t0)
  have ht := session_trace true handler ops fd t0 t1 script
  have hc := (session_loop_stats handler ops script (initial_stats true fd t0)).1
  refine ⟨?_, ?_, ?_⟩
  · intro s hs
    rw [ht] at hs ⊢
    rcases List.mem_append.1 hs with h1 | h1
    · have h2 : Event.report_stats s ∈
          (session_loop true handler ops script (initial_stats true fd t0)).trace.filter
            Event.is_report := List.mem_filter.2 ⟨h1, rfl⟩
      rw [hl.no_report] at h2
      simp at h2
    · unfold report_tail at h1 ⊢
      split at h1
      · rename_i hf
        simp only [List.mem_singleton, Event.report_stats.injEq] at h1
        subst h1
        simp only [hf, and_self, if_true, completed, List.countP_append, List.countP_cons,
          List.countP_nil, Event.is_completion]
        simp only [completed] at hc
        rw [hc]
        simp [initial_stats, session_stats.zero]
      · simp at h1
  · intro ext
    obtain ⟨a1, a2⟩ := session_bytes true handler ops fd t0 t1 script
    obtain ⟨b1, b2⟩ := session_bytes true handler ops fd t0 t1 (script ++ ext)
    rw [a1, a2, b1, b2, session_loop_append]
    split
    · exact ⟨(session_loop_stats handler ops ext _).2.1, (session_loop_stats handler ops ext _).2.2⟩
    · exact ⟨le_refl _, le_refl _⟩
  · intro st n
    simp [count_read, count_write]

/-- Witness for C6: the record reported after `sample.request_then_eof` counts
the one cycle that completed. -/
theorem session_stats_counts_witness :
    Event.report_stats sample.one_request_stats ∈
      (session true sample.echo_handler sample.ops 3 100 200 sample.request_then_eof).trace ∧
    completed
      (session true sample.echo_handler sample.ops 3 100 200 sample.request_then_eof).trace =
      1 ∧
    sample.one_request_stats.num_request =
      completed
        (session true sample.echo_handler sample.ops 3 100 200
          sample.request_then_eof).trace :=
  ⟨by decide, by decide,
   (session_stats_counts sample.echo_handler sample.ops 3 100 200 sample.request_then_eof).1
     sample.one_request_stats (by decide)⟩

/-! ## The request size limit -/

/-- C7, as the counterexample shows it must be amended: the constant
`kRequestSizeLimit` that bounds the read buffer is 1000000 in `session.hpp`
and `1 << 20`, that is 1048576, in `httpmicroservice.cpp`. -/
theorem request_size_limit :
    kRequestSizeLimit = 1000000 ∧ cpp.kRequestSizeLimit = 1048576 := by
  decide

/-- Counterexample to C7 as stated: the constant of `httpmicroservice.cpp` is
not 1000000. -/
theorem request_size_limit_counterexample :
    cpp.kRequestSizeLimit = 1048576 ∧ cpp.kRequestSizeLimit ≠ 1000000 := by
  decide

/-! ## The exit status -/

/-- C8, as the counterexample shows it must be amended: `run` returns 0 when a
signal stops the event loop or the listen coroutine ends without raising, and
it returns no other status; when endpoint resolution fails, or the listen
coroutine raises (a failed bind included), the exception leaves `run`.  The
`main` of the echo example returns 0 when nothing in its `try` block throws
and -1 when anything does. -/
theorem run_exit_status {endpoint : Type} (resolve : Except String endpoint)
    (ctx_run : endpoint → cpp.ListenOutcome) (getenv_port : Except String Nat)
    (async_run : Nat → Except String Unit) (ioc_run : Except String Unit) :
    (∀ ep, resolve = .ok ep →
      (∀ signo, ctx_run ep = .signal signo → cpp.run resolve ctx_run = .ok 0) ∧
      (ctx_run ep = .ended → cpp.run resolve ctx_run = .ok 0) ∧
      (∀ what, ctx_run ep = .raised what → cpp.run resolve ctx_run = .error what)) ∧
    (∀ what, resolve = .error what → cpp.run resolve ctx_run = .error what) ∧
    (∀ n, cpp.run resolve ctx_run = .ok n → n = 0) ∧
    (examples.main getenv_port async_run ioc_run = 0 ∨
      examples.main getenv_port async_run ioc_run = -1) ∧
    (examples.main getenv_port async_run ioc_run = 0 ↔
      ∃ port, getenv_port = .ok port ∧ async_run port = .ok () ∧ ioc_run = .ok ()) := by
  refine ⟨?_, ?_, ?_, ?_, ?_⟩
  · intro ep he
    subst he
    refine ⟨?_, ?_, ?_⟩
    · intro signo h; simp [cpp.run, h]
    · intro h; simp [cpp.run, h]
    · intro what h; simp [cpp.run, h]
  · intro what he
    subst he
    rfl
  · intro n h
    unfold cpp.run at h
    cases resolve with
    | error what => simp at h
    | ok ep =>
      simp only at h
      cases hc : ctx_run ep with
      | signal signo => rw [hc] at h; simp at h; exact h.symm
      | ended => rw [hc] at h; simp at h; exact h.symm
      | raised what => rw [hc] at h; simp at h
  · unfold examples.main
    cases getenv_port with
    | error what => simp
    | ok port =>
      cases h : async_run port with
      | error what => simp [h]
      | ok u => cases ioc_run <;> simp [h]
  · unfold examples.main
    cases getenv_port with
    | error what => simp
    | ok port =>
      cases h : async_run port with
      | error what => simp [h]
      | ok u => cases ioc_run <;> simp [h]

/-- Witness for C8: a stop by SIGTERM gives status 0; a bind failure raised by
the listen coroutine leaves `run` as an exception. -/
theorem run_exit_status_witness :
    cpp.run (Except.ok 8080 : Except String Nat) (fun _ => .signal 15) = .ok 0 ∧
    cpp.run (Except.ok 8080 : Except String Nat) (fun _ => .raised "address in use") =
      .error "address in use" :=
  ⟨((run_exit_status (Except.ok 8080 : Except String Nat) (fun _ => .signal 15) (.ok 8080)
      (fun _ => .ok ()) (.ok ())).1 8080 rfl).1 15 rfl,
   ((run_exit_status (Except.ok 8080 : Except String Nat) (fun _ => .raised "address in use")
      (.ok 8080) (fun _ => .ok ()) (.ok ())).1 8080 rfl).2.2 "address in use" rfl⟩

/-- Counterexample to C8 as stated: when resolution fails, and when the listen
coroutine raises, `run` returns no status at all, so no non-zero status; the
error leaves `run`. -/
theorem run_exit_status_counterexample :
    cpp.run (Except.error "host not found" : Except String Nat) (fun _ => .ended) =
      .error "host not found" ∧
    cpp.run (Except.ok 8080 : Except String Nat) (fun _ => .raised "address in use") =
      .error "address in use" ∧
    (∀ n : Int,
      cpp.run (Except.error "host not found" : Except String Nat) (fun _ => .ended) ≠ .ok n) :=
  ⟨rfl, rfl, fun n h => by simp [cpp.run] at h⟩

/-! ## The echo handler -/

theorem to_upper_ascii (c : Char) : c.toUpper = examples.ascii_upper c := by
  unfold Char.toUpper examples.ascii_upper
  simp only [Char.le_def, Char.toNat, ge_iff_le]
  rfl

theorem to_lower_ascii (c : Char) : c.toLower = examples.ascii_lower c := by
  unfold Char.toLower examples.ascii_lower
  simp only [Char.le_def, Char.toNat, ge_iff_le]
  rfl

/-- C9: for every request, the status, the version and the body of the
response of `echo` are those of the reference table `echo_table`; in
particular `POST /reverse` with body `abc` gives `cba`, `POST /uppercase` with
body `hi` gives `HI`, and `GET /anything` gives the JSON greeting with the
target. -/
theorem echo_agrees_with_table (req : request) :
    ((examples.echo req).result, (examples.echo req).version, (examples.echo req).body) =
      examples.echo_table req ∧
    (examples.echo { req with method := .post, target := "/reverse".toList,
                              body := "abc".toList }).body = "cba".toList ∧
    (examples.echo { req with method := .post, target := "/uppercase".toList,
                              body := "hi".toList }).body = "HI".toList ∧
    (examples.echo { req with method := .get, target := "/anything".toList }).body =
      "\x7b\"hello\": \"/anything\"\x7d".toList ∧
    (examples.echo { req with method := .get, target := "/anything".toList }).result = 200 := by
  refine ⟨?_, rfl, rfl, rfl, rfl⟩
  unfold examples.echo examples.echo_table
  cases hm : req.method <;>
    simp only [examples.get, examples.post, response.make, status.ok, status.not_found,
      status.method_not_allowed]
  · split <;> rfl
  · have hu : examples.to_upper req.body = req.body.map examples.ascii_upper := by
      unfold examples.to_upper
      exact List.map_congr_left (fun c _ => to_upper_ascii c)
    have hl : examples.to_lower req.body = req.body.map examples.ascii_lower := by
      unfold examples.to_lower
      exact List.map_congr_left (fun c _ => to_lower_ascii c)
    rw [hu, hl]
    split_ifs <;> rfl

/-! ## The two session loops -/

/-- C10: for every handler, every message operations and every script of read
and write outcomes, the session of `httpmicroservice.cpp` and the session of
`session.hpp` run without a reporter leave the same trace of reads, handler
calls, writes and half-closes and end the same way; the half-close is in the
trace exactly when the trace holds a read that reported `end_of_stream` or a
successful write of a response that needs EOF, and it is then the last action,
so no half-close follows any other read or write error. -/
theorem sessions_equivalent (handler : Handler) (ops : MessageOps) (fd t0 t1 : Nat)
    (script : List Cycle) :
    cpp.session handler ops script =
      ((session false handler ops fd t0 t1 script).trace,
        (session false handler ops fd t0 t1 script).exit) ∧
    (Event.shutdown_send ∈ (cpp.session handler ops script).1 ↔
      (Event.read (.fail .end_of_stream) ∈ (cpp.session handler ops script).1 ∨
        ∃ res n, Event.write res (.ok n) ∈ (cpp.session handler ops script).1 ∧
          ops.need_eof res = true)) ∧
    (Event.shutdown_send ∈ (cpp.session handler ops script).1 →
      (cpp.session handler ops script).1.getLast? = some .shutdown_send) ∧
    (∀ pre ec suf, ec ≠ .end_of_stream →
      (cpp.session handler ops script).1 = pre ++ .read (.fail ec) :: suf → suf = []) ∧
    (∀ pre res ec suf,
      (cpp.session handler ops script).1 = pre ++ .write res (.fail ec) :: suf → suf = []) := by
  have hc := cpp_session_trace handler ops script
  refine ⟨?_, hc.shutdown_iff, hc.shutdown_last, ?_, ?_⟩
  · rw [session_trace, session_exit, cpp_session_eq_loop false handler ops script
      (initial_stats false fd t0)]
    simp [report_tail]
  · intro pre ec suf hec h
    have hl := hc.local_at pre _ suf h
    simp only [Local, hec, if_false] at hl
    exact hl.1
  · intro pre res ec suf h
    exact (hc.local_at pre _ suf h).2.1

/-- Witness for C10: on `sample.request_then_eof` both sessions read, call the
handler, write, read `end_of_stream` and half-close; on
`sample.request_then_overflow` both stop at the failed read with no
half-close. -/
theorem sessions_equivalent_witness :
    cpp.session sample.echo_handler sample.ops sample.request_then_eof =
      (sample.echo_cycle ++ [.read (.fail .end_of_stream), .shutdown_send], .finished) ∧
    (session false sample.echo_handler sample.ops 3 100 200 sample.request_then_eof).trace =
      sample.echo_cycle ++ [.read (.fail .end_of_stream), .shutdown_send] ∧
    (cpp.session sample.echo_handler sample.ops sample.request_then_overflow).1 =
      sample.echo_cycle ++ [.read (.fail .buffer_overflow)] ∧
    cpp.session sample.echo_handler sample.ops sample.request_then_overflow =
      ((session false sample.echo_handler sample.ops 3 100 200
          sample.request_then_overflow).trace,
        (session false sample.echo_handler sample.ops 3 100 200
          sample.request_then_overflow).exit) :=
  ⟨by decide, by decide, by decide,
   (sessions_equivalent sample.echo_handler sample.ops 3 100 200
      sample.request_then_overflow).1⟩

end httpmicroservice
